import Mathlib

/-!
Verification of the audio-buffer bridge layer of libkeyfinder-sys.

The repository's own sources (src/bridge.cpp, src/bridge.h) are a thin
forwarding layer over KeyFinder::AudioData and KeyFinder::KeyFinder, whose
implementations are not part of the repository sources.  The buffer, its
write-iterator ingestion protocol, the two signal transforms and the
classifier boundary are therefore modelled from the specification's
contract, and the theorems below settle the spec's testable properties
against that model.  Samples are modelled as exact rationals standing in
for the 32-bit floats of the source interface.
-/

namespace KeyfinderBridge

/-- Modelled from the spec: the distinguishable precondition-violation
errors the contract requires (guard on zero channel count before mono
reduction, on zero factor before decimation, and on an empty buffer at the
classification boundary).  The C++ `AudioData`/`KeyFinder` implementations
that would realise them are not under src/. -/
inductive BridgeError where
  | zeroChannels
  | zeroFactor
  | emptyBuffer
deriving DecidableEq, Repr

/-- Modelled from the spec: the SampleBuffer data model — interleaved sample
storage, frame rate, channel count, the maintained logical sample counter
and the write-iterator cursor.  `KeyFinder::AudioData`'s fields are not
under src/. -/
structure AudioData where
  samples : List ℚ
  frameRate : ℕ
  channelCount : ℕ
  sampleCount : ℕ
  writeIteratorPosition : ℕ
deriving DecidableEq, Repr

/-- Modelled from the spec: `new_audiodata` creates an empty, unconfigured
buffer (no samples, counters at zero). -/
def new_audiodata : AudioData :=
  { samples := [], frameRate := 0, channelCount := 0, sampleCount := 0,
    writeIteratorPosition := 0 }

/-- `get_channels` accessor (bridge.cpp forwards to `getChannels`). -/
def get_channels (a : AudioData) : ℕ := a.channelCount

/-- `get_frame_rate` accessor (bridge.cpp forwards to `getFrameRate`). -/
def get_frame_rate (a : AudioData) : ℕ := a.frameRate

/-- `get_sample_count` accessor (bridge.cpp forwards to `getSampleCount`). -/
def get_sample_count (a : AudioData) : ℕ := a.sampleCount

/-- Modelled from the spec: `get_frame_count` is derived as
`sampleCount / channelCount`. -/
def get_frame_count (a : AudioData) : ℕ := a.sampleCount / a.channelCount

/-- Modelled from the spec: configuration setter, no range validation. -/
def set_frame_rate (a : AudioData) (r : ℕ) : AudioData :=
  { a with frameRate := r }

/-- Modelled from the spec: configuration setter, no range validation. -/
def set_channels (a : AudioData) (c : ℕ) : AudioData :=
  { a with channelCount := c }

/-- Modelled from the spec: `add_to_sample_count` increases the logical
sample counter without writing data and without allocating storage. -/
def add_to_sample_count (a : AudioData) (n : ℕ) : AudioData :=
  { a with sampleCount := a.sampleCount + n }

/-- Modelled from the spec: `reset_iterators` sets the write-iterator
cursor back to the start of storage. -/
def reset_iterators (a : AudioData) : AudioData :=
  { a with writeIteratorPosition := 0 }

/-- Modelled from the spec: `advance_write_iterator` moves the write cursor
forward by `n` reserved slots; if allocated storage is insufficient for the
new cursor position the storage grows to accommodate it (grow-on-demand)
rather than failing. -/
def advance_write_iterator (a : AudioData) (n : ℕ) : AudioData :=
  let p := a.writeIteratorPosition + n
  { a with writeIteratorPosition := p,
           samples := a.samples ++ List.replicate (p - a.samples.length) 0 }

/-- Modelled from the spec: `set_sample_at_write_iterator` writes `v` into
the slot most recently reserved by the cursor (the cursor tracks the next
storage position to be filled, so after an advance the slot just passed is
filled), and maintains the logical sample counter as the number of samples
pushed so far.  A set before any advance has no slot to fill and leaves the
buffer unchanged. -/
def set_sample_at_write_iterator (a : AudioData) (v : ℚ) : AudioData :=
  if a.writeIteratorPosition = 0 then a
  else { a with samples := a.samples.set (a.writeIteratorPosition - 1) v,
                sampleCount := max a.sampleCount a.writeIteratorPosition }

/-- The `j`-th interleaved frame of a sample list under channel count `c`:
the `c` consecutive values starting at index `j * c` (out-of-range reads
default to silence). -/
def frameAt (s : List ℚ) (c j : ℕ) : List ℚ :=
  (List.range c).map (fun i => s.getD (j * c + i) 0)

/-- Modelled from the spec: `reduce_to_mono` guards against a zero channel
count, then replaces every frame's `channelCount` interleaved values by
their arithmetic mean, rewrites storage contiguously, sets the channel
count to 1 and the sample counter to the frame count. -/
def reduce_to_mono (a : AudioData) : Except BridgeError AudioData :=
  if a.channelCount = 0 then .error .zeroChannels
  else
    let c := a.channelCount
    let fc := a.sampleCount / c
    let mono := (List.range fc).map (fun j => (frameAt a.samples c j).sum / (c : ℚ))
    .ok { a with samples := mono, channelCount := 1, sampleCount := fc }

/-- Modelled from the spec: `downsample` guards against a zero factor, then
keeps every `factor`-th frame (zero-indexed) and discards the rest (simple
decimation), rewriting storage contiguously and updating the sample
counter; frame-rate metadata is caller-owned and untouched. -/
def downsample (a : AudioData) (factor : ℕ) : Except BridgeError AudioData :=
  if factor = 0 then .error .zeroFactor
  else
    let c := a.channelCount
    let fc := a.sampleCount / c
    let kept := ((List.range fc).filter (fun j => j % factor = 0)).map (frameAt a.samples c)
    .ok { a with samples := kept.flatten, sampleCount := kept.flatten.length }

/-- Modelled from the spec: the classification boundary.  The spectral
algorithm itself is out of scope and passed in as an opaque total function
`classify`; `key_of_audio` fails with a distinguishable precondition error
on an empty buffer, otherwise returns the classifier's key code.  The
buffer is threaded through explicitly so that the read-only borrow of the
classifier is a provable statement. -/
def key_of_audio (classify : AudioData → ℕ) (a : AudioData) :
    Except BridgeError ℕ × AudioData :=
  (if a.sampleCount = 0 then .error .emptyBuffer else .ok (classify a), a)

/-- The canonical ingestion loop of the spec: one
advance-by-one / set pair per sample, over a list of values. -/
def writeSamples (a : AudioData) (vs : List ℚ) : AudioData :=
  vs.foldl (fun b v => set_sample_at_write_iterator (advance_write_iterator b 1) v) a

/-- Filling an exactly-full buffer (cursor and counter both at the end of
storage) with the advance/set loop appends the values and advances both the
counter and the cursor by the number of values written. -/
theorem writeSamples_fill (vs : List ℚ) (b : AudioData)
    (hp : b.writeIteratorPosition = b.samples.length)
    (hc : b.sampleCount = b.samples.length) :
    writeSamples b vs =
      { b with samples := b.samples ++ vs,
               sampleCount := b.samples.length + vs.length,
               writeIteratorPosition := b.samples.length + vs.length } := by
  induction vs generalizing b with
  | nil =>
    obtain ⟨s, fr, c, cnt, p⟩ := b
    dsimp only at hp hc ⊢
    subst hp hc
    simp [writeSamples]
  | cons v rest ih =>
    obtain ⟨s, fr, c, cnt, p⟩ := b
    dsimp only at hp hc ⊢
    subst hp hc
    have hstep :
        set_sample_at_write_iterator
          (advance_write_iterator ⟨s, fr, c, s.length, s.length⟩ 1) v =
          ⟨s ++ [v], fr, c, s.length + 1, s.length + 1⟩ := by
      simp only [advance_write_iterator, set_sample_at_write_iterator]
      rw [if_neg (by omega)]
      have hrep : s.length + 1 - s.length = 1 := by omega
      simp only [hrep, List.replicate_one]
      rw [List.set_append]
      rw [if_neg (by omega)]
      have hidx : s.length + 1 - 1 - s.length = 0 := by omega
      simp only [hidx, List.set_cons_zero]
      congr 1
      omega
    show writeSamples
        (set_sample_at_write_iterator
          (advance_write_iterator ⟨s, fr, c, s.length, s.length⟩ 1) v) rest = _
    rw [hstep, ih ⟨s ++ [v], fr, c, s.length + 1, s.length + 1⟩ (by simp) (by simp)]
    simp only [AudioData.mk.injEq, List.length_append, List.length_cons,
      List.length_nil, List.append_assoc, List.singleton_append, true_and, and_true]
    omega

/-- Re-writing, from cursor position `pre.length`, exactly the values that
storage already holds there leaves the buffer unchanged except that the
cursor ends past the re-written values. -/
theorem writeSamples_rewrite (suffix : List ℚ) : ∀ (pre : List ℚ) (a : AudioData),
    a.samples = pre ++ suffix →
    a.writeIteratorPosition = pre.length →
    a.sampleCount = pre.length + suffix.length →
    writeSamples a suffix =
      { a with writeIteratorPosition := pre.length + suffix.length } := by
  induction suffix with
  | nil =>
    intro pre a hs hp hc
    obtain ⟨s, fr, c, cnt, p⟩ := a
    dsimp only at hs hp hc ⊢
    subst hs hp hc
    simp [writeSamples]
  | cons v rest ih =>
    intro pre a hs hp hc
    obtain ⟨s, fr, c, cnt, p⟩ := a
    dsimp only at hs hp hc ⊢
    subst hs hp hc
    have hstep :
        set_sample_at_write_iterator
          (advance_write_iterator ⟨pre ++ v :: rest, fr, c,
            pre.length + (v :: rest).length, pre.length⟩ 1) v =
          ⟨pre ++ v :: rest, fr, c, pre.length + (v :: rest).length,
            pre.length + 1⟩ := by
      simp only [advance_write_iterator, set_sample_at_write_iterator]
      have hrep : pre.length + 1 - (pre ++ v :: rest).length = 0 := by
        simp only [List.length_append, List.length_cons]
        omega
      rw [if_neg (by omega)]
      simp only [hrep, List.replicate_zero, List.append_nil]
      rw [List.set_append]
      rw [if_neg (by omega)]
      simp only [Nat.sub_self, Nat.add_sub_cancel, List.set_cons_zero]
      congr 1
      simp only [List.length_cons]
      omega
    show writeSamples
        (set_sample_at_write_iterator
          (advance_write_iterator ⟨pre ++ v :: rest, fr, c,
            pre.length + (v :: rest).length, pre.length⟩ 1) v) rest = _
    rw [hstep]
    have happ : pre ++ v :: rest = (pre ++ [v]) ++ rest := by
      simp [List.append_assoc]
    rw [ih (pre ++ [v])
        ⟨pre ++ v :: rest, fr, c, pre.length + (v :: rest).length, pre.length + 1⟩
        (by simp only [happ]) (by simp) (by simp; omega)]
    simp only [AudioData.mk.injEq, List.length_append, List.length_cons,
      List.length_nil, true_and, and_true]
    omega

/-- Claim C3: starting from a freshly created buffer, writing N samples as
N advance/set call pairs (one pair per sample) leaves the logical sample
count equal to N. -/
theorem c3_write_count (vs : List ℚ) :
    get_sample_count (writeSamples new_audiodata vs) = vs.length := by
  rw [writeSamples_fill vs new_audiodata rfl rfl]
  simp [get_sample_count, new_audiodata]

/-- Claim C9: filling a fresh buffer via the write-iterator protocol, then
calling reset_iterators and re-writing the exact same values via the same
protocol, reproduces the buffer exactly — storage contents and the
frameRate, channelCount and sampleCount fields are all unchanged. -/
theorem c9_reset_rewrite_idempotent (vs : List ℚ) :
    writeSamples (reset_iterators (writeSamples new_audiodata vs)) vs =
      writeSamples new_audiodata vs := by
  rw [writeSamples_fill vs new_audiodata rfl rfl]
  have hres :
      reset_iterators
        { new_audiodata with
          samples := new_audiodata.samples ++ vs,
          sampleCount := new_audiodata.samples.length + vs.length,
          writeIteratorPosition := new_audiodata.samples.length + vs.length } =
      ⟨vs, 0, 0, vs.length, 0⟩ := by
    simp [reset_iterators, new_audiodata]
  rw [hres, writeSamples_rewrite vs [] ⟨vs, 0, 0, vs.length, 0⟩ (by simp) rfl (by simp)]
  simp [new_audiodata]

/-- Claim C4: advancing the write iterator never leaves the cursor past the
end of allocated storage — storage grows on demand — and after advancing
over at least one slot, a set lands the value inside storage at the slot
just reserved. -/
theorem c4_advance_in_bounds (a : AudioData) (k : ℕ) (v : ℚ) :
    (advance_write_iterator a k).writeIteratorPosition ≤
      (advance_write_iterator a k).samples.length
    ∧ (set_sample_at_write_iterator (advance_write_iterator a (k + 1)) v).samples.getD
        (a.writeIteratorPosition + k) 0 = v := by
  constructor
  · simp only [advance_write_iterator, List.length_append, List.length_replicate]
    omega
  · simp only [advance_write_iterator, set_sample_at_write_iterator]
    rw [if_neg (by omega)]
    have hlen : a.writeIteratorPosition + k <
        ((a.samples ++
          List.replicate (a.writeIteratorPosition + (k + 1) - a.samples.length) 0).set
            (a.writeIteratorPosition + (k + 1) - 1) v).length := by
      simp only [List.length_set, List.length_append, List.length_replicate]
      omega
    rw [List.getD_eq_getElem _ _ hlen, List.getElem_set]
    rw [if_pos (by omega)]

/-- Claim C8: add_to_sample_count increases the logical sample counter by
exactly n while leaving the stored sample data untouched and allocating no
storage (the storage list and its length are unchanged). -/
theorem c8_add_to_sample_count (a : AudioData) (n : ℕ) :
    get_sample_count (add_to_sample_count a n) = get_sample_count a + n
    ∧ (add_to_sample_count a n).samples = a.samples
    ∧ (add_to_sample_count a n).samples.length = a.samples.length := by
  refine ⟨rfl, rfl, rfl⟩

/-- Claim C5: whenever the sample count is a multiple of a positive channel
count, the frame count accessor returns the sample count divided by the
channel count. -/
theorem c5_frame_count (a : AudioData)
    (h1 : 1 ≤ get_channels a) (h2 : get_channels a ∣ get_sample_count a) :
    get_frame_count a = get_sample_count a / get_channels a := rfl

/-- Witness for C5 at a concrete stereo buffer with four samples. -/
theorem c5_frame_count_witness :
    (1 ≤ get_channels ⟨[1, 2, 3, 4], 44100, 2, 4, 0⟩)
    ∧ (get_channels ⟨[1, 2, 3, 4], 44100, 2, 4, 0⟩ ∣
        get_sample_count ⟨[1, 2, 3, 4], 44100, 2, 4, 0⟩)
    ∧ get_frame_count ⟨[1, 2, 3, 4], 44100, 2, 4, 0⟩ =
        get_sample_count ⟨[1, 2, 3, 4], 44100, 2, 4, 0⟩ /
          get_channels ⟨[1, 2, 3, 4], 44100, 2, 4, 0⟩ :=
  ⟨by decide, by decide,
    c5_frame_count ⟨[1, 2, 3, 4], 44100, 2, 4, 0⟩ (by decide) (by decide)⟩

/-- A consecutive read through getD, starting at `off`, is the take of the
drop, as long as it stays inside the list. -/
theorem mapRange_getD (c : ℕ) : ∀ (off : ℕ) (s : List ℚ), off + c ≤ s.length →
    (List.range c).map (fun i => s.getD (off + i) 0) = (s.drop off).take c := by
  induction c with
  | zero => intro off s h; simp
  | succ c ih =>
    intro off s h
    have hoff : off < s.length := by omega
    rw [List.range_succ_eq_map, List.map_cons, List.map_map,
      List.drop_eq_getElem_cons hoff, List.take_succ_cons]
    congr 1
    · show s.getD (off + 0) 0 = _
      rw [Nat.add_zero, List.getD_eq_getElem s 0 hoff]
    · have harg : ((fun i => s.getD (off + i) 0) ∘ Nat.succ) =
          fun i => s.getD (off + 1 + i) 0 := by
        funext i
        simp only [Function.comp_apply, Nat.succ_eq_add_one]
        congr 1
        omega
      rw [harg, ih (off + 1) s (by omega)]

/-- A frame that lies inside the list is a take of a drop. -/
theorem frameAt_eq_take_drop (s : List ℚ) (c j : ℕ) (h : j * c + c ≤ s.length) :
    frameAt s c j = (s.drop (j * c)).take c :=
  mapRange_getD c (j * c) s h

/-- Concatenating all frames of a list whose length is exactly the frame
count times the channel count gives the list back. -/
theorem flatten_range_frameAt : ∀ (fc : ℕ) (c : ℕ) (s : List ℚ), s.length = fc * c →
    ((List.range fc).map (frameAt s c)).flatten = s := by
  intro fc
  induction fc with
  | zero =>
    intro c s h
    simp only [Nat.zero_mul] at h
    rw [List.length_eq_zero] at h
    subst h
    simp
  | succ fc ih =>
    intro c s h
    rw [List.range_succ_eq_map, List.map_cons, List.map_map, List.flatten_cons]
    have hdl : (s.drop c).length = fc * c := by
      rw [List.length_drop, h, Nat.succ_mul]
      omega
    have hlen : c ≤ s.length := by
      rw [h, Nat.succ_mul]
      omega
    have h0 : frameAt s c 0 = s.take c := by
      rw [frameAt_eq_take_drop s c 0 (by simpa using hlen)]
      simp
    have htail : (List.range fc).map (frameAt s c ∘ Nat.succ) =
        (List.range fc).map (frameAt (s.drop c) c) := by
      apply List.map_congr_left
      intro j hj
      have hj2 : j < fc := List.mem_range.mp hj
      have hb1 : (j + 1) * c + c ≤ s.length := by
        rw [h]
        calc (j + 1) * c + c = (j + 2) * c := by ring
          _ ≤ (fc + 1) * c := mul_le_mul_right' (by omega) c
      have hb2 : j * c + c ≤ (s.drop c).length := by
        rw [hdl]
        calc j * c + c = (j + 1) * c := by ring
          _ ≤ fc * c := mul_le_mul_right' (by omega) c
      show frameAt s c (j + 1) = frameAt (s.drop c) c j
      rw [frameAt_eq_take_drop s c (j + 1) hb1, frameAt_eq_take_drop (s.drop c) c j hb2,
        List.drop_drop]
      congr 2
      ring
    rw [htail, ih c (s.drop c) hdl, h0, List.take_append_drop]

/-- Claim C1: on a buffer with at least one channel and a sample count that
is a multiple of the channel count, reduce_to_mono succeeds, each output
slot holds the arithmetic mean of the corresponding frame's interleaved
values, storage is contiguous with exactly frameCount entries, the channel
count becomes 1 and the sample count becomes the previous frame count; in
particular a 2-channel buffer [L0, R0, L1, R1] becomes
[(L0+R0)/2, (L1+R1)/2]. -/
theorem c1_reduce_to_mono (a : AudioData)
    (h1 : 1 ≤ get_channels a) (h2 : get_channels a ∣ get_sample_count a) :
    (∃ a2, reduce_to_mono a = Except.ok a2
      ∧ get_channels a2 = 1
      ∧ get_sample_count a2 = get_frame_count a
      ∧ a2.samples.length = get_frame_count a
      ∧ ∀ j, j < get_frame_count a →
          a2.samples.getD j 0 =
            (frameAt a.samples (get_channels a) j).sum / (get_channels a : ℚ))
    ∧ (∀ L0 R0 L1 R1 : ℚ, ∀ fr p : ℕ,
        reduce_to_mono ⟨[L0, R0, L1, R1], fr, 2, 4, p⟩ =
          Except.ok ⟨[(L0 + R0) / 2, (L1 + R1) / 2], fr, 1, 2, p⟩) := by
  constructor
  · have hc : a.channelCount ≠ 0 := by
      simp only [get_channels] at h1
      omega
    refine ⟨{ a with
              samples := (List.range (a.sampleCount / a.channelCount)).map
                (fun j => (frameAt a.samples a.channelCount j).sum / (a.channelCount : ℚ)),
              channelCount := 1,
              sampleCount := a.sampleCount / a.channelCount }, ?_, rfl, rfl, ?_, ?_⟩
    · simp [reduce_to_mono, hc]
    · simp [get_frame_count]
    · intro j hj
      simp only [get_frame_count, get_channels] at hj ⊢
      rw [List.getD_eq_getElem _ _ (by simpa using hj)]
      simp
  · intro L0 R0 L1 R1 fr p
    simp only [reduce_to_mono]
    norm_num [frameAt, List.range_succ]

/-- Claim C2: for any buffer with a positive channel count dividing the
sample count and exactly-full storage, downsample with positive factor
keeps exactly the frames at indices 0, factor, 2*factor, ... and discards
the rest; factor 1 is a no-op; and on a mono buffer [s0, s1, s2, s3],
factor 2 yields [s0, s2]. -/
theorem c2_downsample (a : AudioData) (f : ℕ)
    (hf : 1 ≤ f) (h1 : 1 ≤ get_channels a) (h2 : get_channels a ∣ get_sample_count a)
    (h3 : a.samples.length = get_sample_count a) :
    (∃ a2, downsample a f = Except.ok a2
      ∧ a2.samples =
          (((List.range (get_frame_count a)).filter (fun j => j % f = 0)).map
            (fun j => (a.samples.drop (j * get_channels a)).take (get_channels a))).flatten)
    ∧ downsample a 1 = Except.ok a
    ∧ (∀ s0 s1 s2 s3 : ℚ, ∀ fr p : ℕ,
        downsample ⟨[s0, s1, s2, s3], fr, 1, 4, p⟩ 2 =
          Except.ok ⟨[s0, s2], fr, 1, 2, p⟩) := by
  have hmul : get_frame_count a * get_channels a = get_sample_count a :=
    Nat.div_mul_cancel h2
  have hlen : a.samples.length = get_frame_count a * get_channels a := by
    rw [h3, hmul]
  refine ⟨?_, ?_, ?_⟩
  · refine ⟨{ a with
              samples := (((List.range (a.sampleCount / a.channelCount)).filter
                  (fun j => j % f = 0)).map (frameAt a.samples a.channelCount)).flatten,
              sampleCount := (((List.range (a.sampleCount / a.channelCount)).filter
                  (fun j => j % f = 0)).map (frameAt a.samples a.channelCount)).flatten.length },
      ?_, ?_⟩
    · simp [downsample, show f ≠ 0 by omega]
    · show ((((List.range (a.sampleCount / a.channelCount)).filter
          (fun j => j % f = 0)).map (frameAt a.samples a.channelCount)).flatten) = _
      congr 1
      apply List.map_congr_left
      intro j hj
      have hj2 : j < get_frame_count a := by
        have := (List.mem_filter.mp hj).1
        simpa [get_frame_count] using List.mem_range.mp this
      exact frameAt_eq_take_drop a.samples a.channelCount j (by
        rw [hlen]
        calc j * a.channelCount + a.channelCount = (j + 1) * a.channelCount := by ring
          _ ≤ get_frame_count a * a.channelCount := mul_le_mul_right' (by omega) _)
  · have hfil : (List.range (a.sampleCount / a.channelCount)).filter
        (fun j => j % 1 = 0) = List.range (a.sampleCount / a.channelCount) := by
      apply List.filter_eq_self.mpr
      intro x hx
      simp [Nat.mod_one]
    simp only [downsample, one_ne_zero, if_neg, ite_false]
    rw [hfil,
      flatten_range_frameAt (a.sampleCount / a.channelCount) a.channelCount a.samples hlen,
      h3]
    rfl
  · intro s0 s1 s2 s3 fr p
    simp only [downsample]
    norm_num [frameAt, List.range_succ, List.filter]

/-- Witness for C1 on the concrete stereo buffer with samples [1, 2]. -/
theorem c1_reduce_to_mono_witness :
    (1 ≤ get_channels (⟨[1, 2], 0, 2, 2, 0⟩ : AudioData))
    ∧ (get_channels (⟨[1, 2], 0, 2, 2, 0⟩ : AudioData) ∣
        get_sample_count (⟨[1, 2], 0, 2, 2, 0⟩ : AudioData))
    ∧ (∃ a2, reduce_to_mono (⟨[1, 2], 0, 2, 2, 0⟩ : AudioData) = Except.ok a2
        ∧ get_channels a2 = 1) :=
  ⟨by decide, by decide, by
    obtain ⟨⟨a2, hok, hch, _⟩, _⟩ :=
      c1_reduce_to_mono ⟨[1, 2], 0, 2, 2, 0⟩ (by decide) (by decide)
    exact ⟨a2, hok, hch⟩⟩

/-- Witness for C2 on the concrete mono buffer [10, 20, 30, 40]. -/
theorem c2_downsample_witness :
    (1 ≤ (2 : ℕ))
    ∧ (1 ≤ get_channels (⟨[10, 20, 30, 40], 0, 1, 4, 0⟩ : AudioData))
    ∧ (get_channels (⟨[10, 20, 30, 40], 0, 1, 4, 0⟩ : AudioData) ∣
        get_sample_count (⟨[10, 20, 30, 40], 0, 1, 4, 0⟩ : AudioData))
    ∧ ((⟨[10, 20, 30, 40], 0, 1, 4, 0⟩ : AudioData).samples.length =
        get_sample_count (⟨[10, 20, 30, 40], 0, 1, 4, 0⟩ : AudioData))
    ∧ downsample (⟨[10, 20, 30, 40], 0, 1, 4, 0⟩ : AudioData) 1 =
        Except.ok (⟨[10, 20, 30, 40], 0, 1, 4, 0⟩ : AudioData) :=
  ⟨by decide, by decide, by decide, by decide,
    (c2_downsample ⟨[10, 20, 30, 40], 0, 1, 4, 0⟩ 2
      (by decide) (by decide) (by decide) (by decide)).2.1⟩

/-- Claim C6: the transforms guard their preconditions — reduce_to_mono on
a zero-channel buffer and downsample with factor zero each fail, with
distinguishable errors. -/
theorem c6_guards (a b : AudioData) (h : get_channels a = 0) :
    reduce_to_mono a = Except.error BridgeError.zeroChannels
    ∧ downsample b 0 = Except.error BridgeError.zeroFactor
    ∧ BridgeError.zeroChannels ≠ BridgeError.zeroFactor := by
  refine ⟨?_, rfl, by decide⟩
  simp only [get_channels] at h
  simp [reduce_to_mono, h]

/-- Witness for C6 on the fresh (zero-channel) buffer. -/
theorem c6_guards_witness :
    get_channels new_audiodata = 0
    ∧ reduce_to_mono new_audiodata = Except.error BridgeError.zeroChannels
    ∧ downsample new_audiodata 0 = Except.error BridgeError.zeroFactor
    ∧ BridgeError.zeroChannels ≠ BridgeError.zeroFactor :=
  ⟨rfl, (c6_guards new_audiodata new_audiodata rfl).1,
    (c6_guards new_audiodata new_audiodata rfl).2.1,
    (c6_guards new_audiodata new_audiodata rfl).2.2⟩

/-- Claim C7: classifying a buffer whose sample count is zero fails with
the distinguishable empty-buffer precondition error and never returns a
key code. -/
theorem c7_empty_buffer (classify : AudioData → ℕ) (a : AudioData)
    (h : get_sample_count a = 0) :
    (key_of_audio classify a).1 = Except.error BridgeError.emptyBuffer
    ∧ ∀ k : ℕ, (key_of_audio classify a).1 ≠ Except.ok k := by
  simp only [get_sample_count] at h
  constructor
  · simp [key_of_audio, h]
  · intro k
    simp [key_of_audio, h]

/-- Witness for C7 on the fresh (empty) buffer with a constant classifier. -/
theorem c7_empty_buffer_witness :
    get_sample_count new_audiodata = 0
    ∧ (key_of_audio (fun _ => 0) new_audiodata).1 =
        Except.error BridgeError.emptyBuffer :=
  ⟨rfl, (c7_empty_buffer (fun _ => 0) new_audiodata rfl).1⟩

/-- Claim C10: the classification call returns the buffer it was given
completely unchanged — the whole buffer, its samples, frame rate, channel
count, sample count and frame count are identical, for every classifier. -/
theorem c10_classifier_pure (classify : AudioData → ℕ) (a : AudioData) :
    (key_of_audio classify a).2 = a
    ∧ (key_of_audio classify a).2.samples = a.samples
    ∧ get_frame_rate (key_of_audio classify a).2 = get_frame_rate a
    ∧ get_channels (key_of_audio classify a).2 = get_channels a
    ∧ get_sample_count (key_of_audio classify a).2 = get_sample_count a
    ∧ get_frame_count (key_of_audio classify a).2 = get_frame_count a :=
  ⟨rfl, rfl, rfl, rfl, rfl, rfl⟩

end KeyfinderBridge
